import Mathlib

/-!
Verification of the `elementpath` XPath 3.1 operator layer.

Shallow embedding of the XPath 3.1 operator code of the `elementpath`
repository (`src/elementpath/xpath31/_xpath31_operators.py`,
`src/elementpath/xpath30/translation_maps.py`, and the W3C test driver
`src/tests/execute_w3c_tests.py`), together with proofs of the
specification's claims about it.

Python values are modelled explicitly: an XPath item is a node-free
atomic value, a map or an array; a Python value held in a token, a map
binding or an array member is either a single item or a flat list of
items (elementpath represents sequences as Python lists).  Fallible
code is modelled with `Except`.
-/

namespace Elementpath

/-- XPath error codes raised by the embedded code, plus the parser's
`missing_context` condition. -/
inductive XPathErr where
  | XPTY0004
  | XPST0003
  | XPST0017
  | FOAY0001
  | missingContext
  deriving DecidableEq, Repr

/-- Atomic values, restricted to the kinds exercised by the claims
(strings, integers, booleans).  Map keys are atomic values compared with
their own equality, as in `XPathMap`'s dict keys. -/
inductive Atomic where
  | str (s : String)
  | int (n : Int)
  | bool (b : Bool)
  deriving DecidableEq, Repr

mutual
/-- An XPath item: an atomic value, a map (`XPathMap`, a dict from atomic
keys to stored values) or an array (`XPathArray`, a list of stored member
values).  Nodes and function items are not needed by the claims. -/
inductive XItem where
  | atomic (a : Atomic)
  | map (entries : List (Atomic × XVal))
  | array (members : List XVal)

/-- A Python value as elementpath stores it: either a single item or a
flat list of items (a sequence). -/
inductive XVal where
  | one (i : XItem)
  | seq (xs : List XItem)
end

/-- The items of a Python value: a single item gives a one-item list, a
list gives its elements. -/
def valItems : XVal → List XItem
  | .one i => [i]
  | .seq xs => xs

/-- Modelled from the spec: `iter_sequence` from `elementpath.helpers`
(not under `src/`), which yields nothing for `None`, the single item for
a non-list value, and the elements for a list — i.e. it flattens a
stored value one level into a sequence of items. -/
def iterSequence : Option XVal → List XItem
  | none => []
  | some v => valItems v

/-- Modelled from the spec: `XPathMap.__call__` (not under `src/`) looks
the key up in the map's dict, `None` for a missing key; lookup by a
missing key yields the empty sequence.  The dict is rendered as an
association list with distinct keys, looked up front to back. -/
def mapCall (entries : List (Atomic × XVal)) (k : Atomic) : Option XVal :=
  match entries with
  | [] => none
  | p :: rest => if p.1 = k then some p.2 else mapCall rest k

/-- Whether the map has a binding for key `k` (dict membership). -/
def mapContains (entries : List (Atomic × XVal)) (k : Atomic) : Bool :=
  match entries with
  | [] => false
  | p :: rest => p.1 = k || mapContains rest k

/-- Modelled from the spec: `map:put` (function body not under `src/`)
returns a new map with `k` bound to `v`; as with a Python dict update,
an existing binding is replaced in place, a new one is appended. -/
def mapPut (entries : List (Atomic × XVal)) (k : Atomic) (v : XVal) :
    List (Atomic × XVal) :=
  if mapContains entries k then
    entries.map fun p => if p.1 = k then (p.1, v) else p
  else
    entries ++ [(k, v)]

/-- Modelled from the spec: `map:remove` (function body not under
`src/`) returns a new map without any binding for `k` — the entries
with key `k` filtered out. -/
def mapRemove (entries : List (Atomic × XVal)) (k : Atomic) :
    List (Atomic × XVal) :=
  match entries with
  | [] => []
  | p :: rest => if p.1 = k then mapRemove rest k else p :: mapRemove rest k

/-- Modelled from the spec: `array:append` (function body not under
`src/`) returns a new array with `v` appended as a last member. -/
def arrayAppend (members : List XVal) (v : XVal) : List XVal :=
  members ++ [v]

/-- Modelled from the spec: `XPathArray.__call__` (not under `src/`)
returns the 1-based member `i`, raising `FOAY0001` out of range. -/
def arrayCall (members : List XVal) (i : Int) : Except XPathErr XVal :=
  if i < 1 then .error .FOAY0001
  else
    match members[i.toNat - 1]? with
    | some v => .ok v
    | none => .error .FOAY0001

/-! ## The lookup operator (`LookupOperatorToken`, src lines 115-189) -/

/-- The key operand of a lookup, by the symbol of the token `self[-1]`:
`(name)` carries a string, `(integer)` an integer, `*` is the wildcard,
and `(` carries the atomized values selected by the parenthesized
expression (`self.data_value(value)` for each selected value). -/
inductive KeySpec where
  | name (s : String)
  | int (n : Int)
  | star
  | paren (keys : List Atomic)

/-- Modelled from the spec: atomized values used as array lookup keys
must be integers; `XPathArray.__call__` (not under `src/`) rejects
non-integer keys with a type error. -/
def atomicToInt : Atomic → Except XPathErr Int
  | .int n => .ok n
  | _ => .error .XPTY0004

/-- The per-item body of `LookupOperatorToken.select` (src lines
164-188): on a map, `*` yields all values each flattened one level, a
name or integer key yields `iter_sequence(item(context, key))`, and a
parenthesized key looks up each selected key; on an array, `*` yields
all members, a name raises `XPTY0004`, an integer or parenthesized key
yields the called member; on any other item it raises `XPTY0004`. -/
def lookupUnaryItem (item : XItem) (k : KeySpec) : Except XPathErr (List XVal) :=
  match item with
  | .map entries =>
    match k with
    | .star => .ok ((entries.map (·.2)).flatMap fun v =>
        (iterSequence (some v)).map XVal.one)
    | .name s => .ok ((iterSequence (mapCall entries (.str s))).map XVal.one)
    | .int n => .ok ((iterSequence (mapCall entries (.int n))).map XVal.one)
    | .paren ks => .ok (ks.flatMap fun a =>
        (iterSequence (mapCall entries a)).map XVal.one)
  | .array members =>
    match k with
    | .star => .ok members
    | .name _ => .error .XPTY0004
    | .int n => (arrayCall members n).map fun v => [v]
    | .paren ks => ks.mapM fun a => atomicToInt a >>= arrayCall members
  | .atomic _ => .error .XPTY0004

/-- The `for item in items` loop of `LookupOperatorToken.select`:
each item's lookup results in order; an error aborts the evaluation. -/
def lookupLoop (items : List XItem) (k : KeySpec) : Except XPathErr (List XVal) :=
  match items with
  | [] => .ok []
  | it :: rest => do
      let r ← lookupUnaryItem it k
      let rs ← lookupLoop rest k
      pure (r ++ rs)

/-- The children of a `?` token: none (a placeholder, carrying its
stored `value`), one key operand (the unary lookup, applied to the
context item), or a left operand with a key (the binary lookup `E?K`,
where the left operand selected the item list). -/
inductive LookupArgs where
  | noChildren (value : Option XVal)
  | unary (k : KeySpec)
  | binary (items : List XItem) (k : KeySpec)

/-- Embedding of `LookupOperatorToken.select` (src lines 151-188): a childless token
yields `iter_sequence(self.value)`; the unary form requires a context
and applies the lookup to the context item; the binary form applies it
to each item selected by the left operand. -/
def lookupSelect (args : LookupArgs) (ctx : Option XItem) :
    Except XPathErr (List XVal) :=
  match args with
  | .noChildren v => .ok ((iterSequence v).map XVal.one)
  | .unary k =>
    match ctx with
    | none => .error .missingContext
    | some it => lookupLoop [it] k
  | .binary items k => lookupLoop items k

/-- The Python value returned by a token's `evaluate`: `None`, a single
value, or the list collected from `select`. -/
inductive PyObj where
  | pyNone
  | pyVal (v : XVal)
  | pyList (vs : List XVal)

/-- Embedding of `LookupOperatorToken.evaluate` (src lines 146-149): a childless
placeholder returns its stored `value` as is (`None` when absent);
otherwise the list of selected values. -/
def lookupEvaluate (args : LookupArgs) (ctx : Option XItem) :
    Except XPathErr PyObj :=
  match args with
  | .noChildren v =>
    .ok (match v with | none => .pyNone | some x => .pyVal x)
  | _ => (lookupSelect args ctx).map .pyList

/-! ## Lookup token construction and nud (src lines 124-139) -/

/-- Embedding of `LookupOperatorToken.__init__` (src lines 124-130): the binding
powers given to a freshly constructed `?` token, by the symbol of the
token current at construction time.  After `(` or `,` both binding
powers drop to zero (an argument placeholder); otherwise the class
values `lbp = rbp = 85` stand. -/
def lookupInitBP (prev : String) : Nat × Nat :=
  if prev = "(name)" then (85, 85)
  else if prev = "(" ∨ prev = "," then (0, 0)
  else (85, 85)

/-- Outcome of `LookupOperatorToken.nud` (src lines 132-139): either the
token stays childless (a placeholder) or it parses a key operand. -/
inductive LookupNudResult where
  | placeholder
  | keyOperand
  deriving DecidableEq, Repr

/-- Embedding of `LookupOperatorToken.nud`: `expected_next('(name)', '(integer)',
'(', '*')` raises a syntax error that is caught, making the token a
placeholder; on those four symbols the key operand is parsed. -/
def lookupNud (next : String) : LookupNudResult :=
  if next = "(name)" ∨ next = "(integer)" ∨ next = "(" ∨ next = "*" then
    .keyOperand
  else
    .placeholder

/-! ## The arrow operator (`=>`, src lines 194-230) -/

/-- A function table resolving an expanded name at an arity, as
`get_function(context, arity=...)` does; `none` models the unknown
function/arity error `XPST0017`. -/
def FuncTable : Type :=
  String → Nat → Option (List XVal → Except XPathErr XVal)

/-- The `arguments` list assembled by `evaluate_arrow_operator` (src
lines 219-230): the left operand's value first; then, when the argument
token is non-empty, its value — extended item by item when it is a
list, appended whole otherwise. -/
def arrowArguments (eVal : XVal) (otherArgs : Option XVal) : List XVal :=
  eVal :: (match otherArgs with
    | none => []
    | some (.seq xs) => xs.map XVal.one
    | some (.one i) => [.one i])

/-- Embedding of `evaluate_arrow_operator` (src lines 219-230): assemble the
arguments, resolve the function at `len(arguments)`, and call it. -/
def evaluateArrow (tbl : FuncTable) (f : String) (eVal : XVal)
    (otherArgs : Option XVal) : Except XPathErr XVal :=
  let arguments := arrowArguments eVal otherArgs
  match tbl f arguments.length with
  | none => .error .XPST0017
  | some g => g arguments

/-- Modelled from the spec: a static function call `F(v1, …, vn)` (the
function-call token is not under `src/`) resolves `F` at arity `n` and
passes each argument's value as one positional argument. -/
def directCall (tbl : FuncTable) (f : String) (args : List XVal) :
    Except XPathErr XVal :=
  match tbl f args.length with
  | none => .error .XPST0017
  | some g => g args

/-- Modelled from the spec: the value of the parenthesized argument
token `self[2]` of an arrow expression.  With no arguments the token is
empty (falsy); a single argument's value passes through; several
comma-separated arguments flatten into one sequence (`,` builds a
sequence, and sequences are flat). -/
def parenthesizedValue : List XVal → Option XVal
  | [] => none
  | [v] => some v
  | vs => some (.seq (vs.flatMap valItems))

/-- Evaluation of the arrow expression `E => F(a1, …, an)` given the
values of `E` and of each argument expression. -/
def arrowOfCall (tbl : FuncTable) (f : String) (eVal : XVal)
    (args : List XVal) : Except XPathErr XVal :=
  evaluateArrow tbl f eVal (parenthesizedValue args)

/-! ## Array constructors (src lines 96-112) and versions -/

/-- Lexicographic order on character lists, by code point, as Python's
`<` compares strings. -/
def lexLtChars : List Char → List Char → Bool
  | [], [] => false
  | [], _ :: _ => true
  | _ :: _, [] => false
  | a :: as, b :: bs =>
    if a < b then true else if a = b then lexLtChars as bs else false

/-- Python's `<` on strings: lexicographic comparison by code point. -/
def pyStrLt (a b : String) : Bool :=
  lexLtChars a.data b.data

/-- Embedding of `nud_square_array_constructor` (src lines 96-112): given the parser
version and the comma-separated member expressions' values, raise
`wrong_syntax` (a static error, `XPST0003`) when
`self.parser.version < '3.1'` — a Python lexicographic string
comparison — and otherwise build an array token whose members are the
expressions in order. -/
def nudSquareArrayConstructor (version : String) (members : List XVal) :
    Except XPathErr (List XVal) :=
  if pyStrLt version "3.1" then .error .XPST0003 else .ok members

/-- Modelled from the spec: the curly array constructor `array { E }`
(the `XPathArray` nud is not under `src/`) makes each item of the
enclosed sequence's value one member of the new array. -/
def curlyArrayConstruct (v : XVal) : List XVal :=
  (valItems v).map XVal.one

/-! ## The `map` keyword: nud and tokenizer pattern (src lines 26-55) -/

/-- A simplified token as seen by `nud_map_sequence_type_or_constructor`:
braces, parens, comma, star, a name (standing for any sequence-type
operand) or any other symbol. -/
inductive STok where
  | lbrace
  | lparen
  | rparen
  | comma
  | star
  | name (s : String)
  | other (s : String)
  deriving DecidableEq, Repr

/-- Result of the `map` keyword's nud: delegate to the map constructor,
re-parse as an ordinary name, or a map kind test (`map(*)` or
`map(K, V)`). -/
inductive MapNudResult where
  | constructor
  | asName
  | kindTestAny
  | kindTest (key value : String)
  deriving DecidableEq, Repr

/-- One sequence-type operand inside the kind test, as parsed by
`self.parser.expression(45)`: a `*` wildcard or a (qualified) name. -/
def parseKindOperand : List STok → Except XPathErr (Option String × List STok)
  | .star :: rest => .ok (none, rest)
  | .name s :: rest => .ok (some s, rest)
  | _ => .error .XPST0003

/-- Embedding of `nud_map_sequence_type_or_constructor` (src lines 30-55): `{` next
delegates to the `XPathMap` constructor; anything other than `(` next
re-parses the keyword as a name; otherwise a kind test is parsed — one
operand which, when it is `*`, must be immediately followed by `)`, and
otherwise must be followed by `,`, a second operand and `)`. -/
def nudMap (tokens : List STok) : Except XPathErr (MapNudResult × List STok) :=
  match tokens with
  | .lbrace :: rest => .ok (.constructor, .lbrace :: rest)
  | .lparen :: rest => do
    let (op₁, rest₁) ← parseKindOperand rest
    match op₁ with
    | none =>
      match rest₁ with
      | .rparen :: rest₂ => .ok (.kindTestAny, rest₂)
      | _ => .error .XPST0003
    | some k =>
      match rest₁ with
      | .comma :: rest₂ => do
        let (op₂, rest₃) ← parseKindOperand rest₂
        match op₂, rest₃ with
        | some v, .rparen :: rest₄ => .ok (.kindTest k v, rest₄)
        | none, .rparen :: rest₄ => .ok (.kindTest k "*", rest₄)
        | _, _ => .error .XPST0003
      | _ => .error .XPST0003
  | ts => .ok (.asName, ts)

/-- Whether a character is a regex word character (`\w`). -/
def isWordChar (c : Char) : Bool :=
  c.isAlphanum || c = '_'

/-- Drop leading whitespace (`\s*`). -/
def skipWS (cs : List Char) : List Char :=
  cs.dropWhile (·.isWhitespace)

/-- Whether the next character is `(` or `{` (the inner lookahead
`(?=\(|\{)`; the trailing `(?!\:)` is vacuous at such a position). -/
def headParenOrBrace (cs : List Char) : Bool :=
  match cs.head? with
  | some '(' => true
  | some '{' => true
  | _ => false

/-- Backtracking over the comment body `\(\:.*\:\)`: scanning the
characters after an opening `(:`, some `:)` on the same line (the `.*`
does not match a newline) must be followed, after whitespace, by `(` or
`{`. -/
def commentSplitOk (cs : List Char) : Bool :=
  match cs with
  | [] => false
  | ':' :: ')' :: rest =>
    headParenOrBrace (skipWS rest) || commentSplitOk (')' :: rest)
  | '\n' :: _ => false
  | _ :: rest => commentSplitOk rest
termination_by cs.length

/-- The lookahead of the `map` symbol's tokenizer pattern
`(?<!\$)\bmap(?=\s*(?:\(\:.*\:\))?\s*(?=\(|\{)(?!\:))` (src line 27):
after optional whitespace, either the next character is `(` or `{`, or
a comment opens whose close is followed (after whitespace) by `(` or
`{`. -/
def mapLookaheadOk (cs : List Char) : Bool :=
  let cs₁ := skipWS cs
  headParenOrBrace cs₁ ||
    (match cs₁ with
     | '(' :: ':' :: rest => commentSplitOk rest
     | _ => false)

/-- The full recognizer condition of the `map` symbol's pattern: the
preceding character (if any) is not a word character (`\b`) and not `$`
(`(?<!\$)`), and the lookahead holds. -/
def recognizeMap (prev : Option Char) (follows : List Char) : Bool :=
  (match prev with
   | none => true
   | some c => !isWordChar c && c ≠ '$') && mapLookaheadOk follows

/-! ## Translation maps (`xpath30/translation_maps.py`) -/

/-- The dict `ROMAN_NUMERALS_MAP` (translation_maps.py lines 22-36), in the
source's (insertion) order, which is strictly decreasing. -/
def ROMAN_NUMERALS_MAP : List (Nat × String) :=
  [(1000, "M"), (900, "CM"), (500, "D"), (400, "CD"), (100, "C"),
   (90, "XC"), (50, "L"), (40, "XL"), (10, "X"), (9, "IX"),
   (5, "V"), (4, "IV"), (1, "I")]

/-- Concatenation of `k` copies of `s`. -/
def repeatStr (s : String) : Nat → String
  | 0 => ""
  | k + 1 => s ++ repeatStr s k

/-- One base of the greedy roman decomposition: append the numeral once
for every time the base fits, keep the remainder. -/
def romanStep (acc : String × Nat) (p : Nat × String) : String × Nat :=
  (acc.1 ++ repeatStr p.2 (acc.2 / p.1), acc.2 % p.1)

/-- Modelled from the spec: `format-integer` with picture `"I"` (the
renderer is not under `src/`) renders by greedy decomposition over
`ROMAN_NUMERALS_MAP` — for each base in decreasing order, emit the
numeral while the remainder covers the base. -/
def intToRoman (n : Nat) : String :=
  (ROMAN_NUMERALS_MAP.foldl romanStep ("", n)).1

/-- The dict `NUM_TO_WORD_MAPS['en']` (translation_maps.py lines 92-125), in the
source's order. -/
def NUM_TO_WORD_MAPS_en : List (Nat × String) :=
  [(10 ^ 9, "billion"), (10 ^ 6, "million"), (1000, "thousand"),
   (100, "hundred"), (90, "ninety"), (80, "eighty"), (70, "seventy"),
   (60, "sixty"), (50, "fifty"), (40, "forty"), (30, "thirty"),
   (20, "twenty"), (19, "nineteen"), (18, "eighteen"), (17, "seventeen"),
   (16, "sixteen"), (15, "fifteen"), (14, "fourteen"), (13, "thirteen"),
   (12, "twelve"), (11, "eleven"), (10, "ten"), (9, "nine"), (8, "eight"),
   (7, "seven"), (6, "six"), (5, "five"), (4, "four"), (3, "three"),
   (2, "two"), (1, "one"), (0, "zero")]

/-- The English word bound to `n` in `NUM_TO_WORD_MAPS_en` (empty when
absent). -/
def wordFor (n : Nat) : String :=
  match NUM_TO_WORD_MAPS_en.find? fun p => p.1 = n with
  | some p => p.2
  | none => ""

/-- English words for `n < 100`: the table word up to twenty, then the
tens word hyphenated with the unit word. -/
def tensUnitsToWords (n : Nat) : String :=
  if n < 21 then wordFor n
  else if n % 10 = 0 then wordFor n
  else wordFor (n / 10 * 10) ++ "-" ++ wordFor (n % 10)

/-- English words for `n < 1000`: hundreds then the remainder. -/
def threeDigitsToWords (n : Nat) : String :=
  if n < 100 then tensUnitsToWords n
  else if n % 100 = 0 then wordFor (n / 100) ++ " hundred"
  else wordFor (n / 100) ++ " hundred " ++ tensUnitsToWords (n % 100)

/-- The words for one thousands-group together with its scale word,
empty when the group is zero. -/
def groupWords (g : Nat) (scale : String) : List String :=
  if g = 0 then [] else [threeDigitsToWords g ++ " " ++ scale]

/-- Modelled from the spec: `format-integer` with picture `"w"` and
language `"en"` (the renderer is not under `src/`) renders the cardinal
using `NUM_TO_WORD_MAPS['en']`, decomposing into billions, millions,
thousands and the final three digits. -/
def numToWordsEn (n : Nat) : String :=
  if n = 0 then wordFor 0
  else
    String.intercalate " "
      (groupWords (n / 10 ^ 9) "billion" ++
       groupWords (n / 10 ^ 6 % 1000) "million" ++
       groupWords (n / 1000 % 1000) "thousand" ++
       (if n % 1000 = 0 then [] else [threeDigitsToWords (n % 1000)]))

/-! ## The W3C test driver's result validators (`execute_w3c_tests.py`) -/

/-- A result element of a QT3 test case, as the driver's `Result` class
dispatches on it (line 397): the combinators `all-of`, `any-of` and
`not`, the unimplemented `assert-permutation`, and every other
validator, abstracted by the outcome its checking code produces (which
depends on running the test). -/
inductive WResult where
  | allOf (children : List WResult)
  | anyOf (children : List WResult)
  | notOf (child : WResult)
  | assertPermutation
  | leaf (outcome : Option Bool)

/-- Python truthiness of a validator's return value: `None` and `False`
are falsy. -/
def truthy : Option Bool → Bool
  | none => false
  | some b => b

mutual
/-- Embedding of `Result.validate` (line 397 dispatches to a method named after the type): `all-of`
starts from `True` and clears it on any falsy child (lines 416-423),
`any-of` starts from `False` and sets it on any truthy child (lines
425-436), `not` negates its only child's truthiness (lines 438-444),
`assert-permutation` has an empty body and returns `None` (lines
614-615), and every other validator returns its checking outcome. -/
def validate : WResult → Option Bool
  | .allOf cs => some (validateAll cs)
  | .anyOf cs => some (validateAny cs)
  | .notOf c => some (!truthy (validate c))
  | .assertPermutation => none
  | .leaf o => o

/-- The `all-of` loop over children. -/
def validateAll : List WResult → Bool
  | [] => true
  | c :: cs => truthy (validate c) && validateAll cs

/-- The `any-of` loop over children. -/
def validateAny : List WResult → Bool
  | [] => false
  | c :: cs => truthy (validate c) || validateAny cs
end

/-- Outcome classification in the driver's main loop (lines 737-749):
`run` returns `validate`'s result; a case counts as success only when
that result `is True`, as failed only when it `is False`, and as
unknown otherwise. -/
inductive CaseOutcome where
  | success
  | failed
  | unknown
  deriving DecidableEq, Repr

/-- The outcome recorded for a test case whose result element is `r`. -/
def caseOutcome (r : WResult) : CaseOutcome :=
  match validate r with
  | some true => .success
  | some false => .failed
  | none => .unknown

/-! ## Helper lemmas -/

theorem mapCall_append_missing (m : List (Atomic × XVal)) (k : Atomic)
    (v : XVal) (h : mapContains m k = false) :
    mapCall (m ++ [(k, v)]) k = some v := by
  induction m with
  | nil => simp [mapCall]
  | cons p rest ih =>
    simp only [mapContains, Bool.or_eq_false_iff, decide_eq_false_iff_not] at h
    simp [mapCall, h.1, ih h.2]

theorem mapCall_update_self (m : List (Atomic × XVal)) (k : Atomic) (v : XVal)
    (h : mapContains m k = true) :
    mapCall (m.map fun p => if p.1 = k then (p.1, v) else p) k = some v := by
  induction m with
  | nil => simp [mapContains] at h
  | cons p rest ih =>
    by_cases hp : p.1 = k
    · simp [mapCall, hp]
    · have hrest : mapContains rest k = true := by
        simp only [mapContains, Bool.or_eq_true, decide_eq_true_eq] at h
        exact h.resolve_left hp
      simp [mapCall, hp, ih hrest]

theorem mapCall_mapPut_self (m : List (Atomic × XVal)) (k : Atomic) (v : XVal) :
    mapCall (mapPut m k v) k = some v := by
  by_cases h : mapContains m k
  · simp only [mapPut, h, if_true]
    exact mapCall_update_self m k v h
  · rw [Bool.not_eq_true] at h
    simp only [mapPut, h, Bool.false_eq_true, if_false]
    exact mapCall_append_missing m k v h

theorem mapCall_update_other (m : List (Atomic × XVal)) (k k' : Atomic)
    (v : XVal) (hne : k' ≠ k) :
    mapCall (m.map fun p => if p.1 = k then (p.1, v) else p) k' = mapCall m k' := by
  induction m with
  | nil => rfl
  | cons p rest ih =>
    simp only [List.map_cons]
    by_cases hp : p.1 = k
    · have hp' : ¬ p.1 = k' := fun hh => hne (by rw [← hh, hp])
      rw [if_pos hp]
      simp [mapCall, hp', ih]
    · rw [if_neg hp]
      by_cases hp' : p.1 = k' <;> simp [mapCall, hp', ih]

theorem mapCall_append_other (m : List (Atomic × XVal)) (k k' : Atomic)
    (v : XVal) (hne : k' ≠ k) :
    mapCall (m ++ [(k, v)]) k' = mapCall m k' := by
  induction m with
  | nil =>
    have : ¬ k = k' := fun hh => hne hh.symm
    simp [mapCall, this]
  | cons p rest ih => by_cases hp : p.1 = k' <;> simp [mapCall, hp, ih]

theorem mapCall_mapPut_other (m : List (Atomic × XVal)) (k k' : Atomic)
    (v : XVal) (hne : k' ≠ k) :
    mapCall (mapPut m k v) k' = mapCall m k' := by
  by_cases h : mapContains m k
  · simp only [mapPut, h, if_true]
    exact mapCall_update_other m k k' v hne
  · rw [Bool.not_eq_true] at h
    simp only [mapPut, h, Bool.false_eq_true, if_false]
    exact mapCall_append_other m k k' v hne

theorem mapContains_mapRemove_self (m : List (Atomic × XVal)) (k : Atomic) :
    mapContains (mapRemove m k) k = false := by
  induction m with
  | nil => rfl
  | cons p rest ih =>
    by_cases hp : p.1 = k
    · simpa [mapRemove, hp] using ih
    · simpa [mapRemove, hp, mapContains] using ih

theorem mapCall_mapRemove_other (m : List (Atomic × XVal)) (k k' : Atomic)
    (hne : k' ≠ k) :
    mapCall (mapRemove m k) k' = mapCall m k' := by
  induction m with
  | nil => rfl
  | cons p rest ih =>
    by_cases hp : p.1 = k
    · have hp' : ¬ p.1 = k' := fun hh => hne (by rw [← hh, hp])
      simp only [mapRemove, if_pos hp]
      rw [ih]
      simp [mapCall, hp']
    · simp only [mapRemove, if_neg hp]
      by_cases hp' : p.1 = k' <;> simp [mapCall, hp', ih]

theorem arrayCall_arrayAppend_frame (a : List XVal) (v : XVal) (i : Int)
    (h1 : 1 ≤ i) (h2 : i ≤ a.length) :
    arrayCall (arrayAppend a v) i = arrayCall a i := by
  have hlt : ¬ i < 1 := by omega
  have hidx : i.toNat - 1 < a.length := by omega
  unfold arrayCall arrayAppend
  rw [List.getElem?_append_left hidx]

/-! ## Claim C3 -/

/-- C3: for every map `M`, atomic key `k` and value `v`: if `M` binds
`k` to `v` then the lookup `M?k` yields `v` (flattened one level); the
lookup `map:put(M, k, v)?k` yields `v`; and
`map:remove(map:put(M, k, v), k)` has no binding for `k`. -/
theorem map_lookup_laws :
    (∀ (m : List (Atomic × XVal)) (k : Atomic) (v : XVal),
      mapCall m k = some v →
      lookupSelect (.unary (.paren [k])) (some (.map m)) =
        .ok ((valItems v).map XVal.one)) ∧
    (∀ (m : List (Atomic × XVal)) (k : Atomic) (v : XVal),
      mapCall (mapPut m k v) k = some v) ∧
    (∀ (m : List (Atomic × XVal)) (k : Atomic) (v : XVal),
      lookupSelect (.unary (.paren [k])) (some (.map (mapPut m k v))) =
        .ok ((valItems v).map XVal.one)) ∧
    (∀ (m : List (Atomic × XVal)) (k : Atomic) (v : XVal),
      mapContains (mapRemove (mapPut m k v) k) k = false) := by
  have key : ∀ (m : List (Atomic × XVal)) (k : Atomic) (v : XVal),
      mapCall m k = some v →
      lookupSelect (.unary (.paren [k])) (some (.map m)) =
        .ok ((valItems v).map XVal.one) := by
    intro m k v h
    simp [lookupSelect, lookupLoop, lookupUnaryItem, iterSequence, h,
      Bind.bind, Except.bind, pure, Except.pure]
  refine ⟨key, fun m k v => mapCall_mapPut_self m k v,
    fun m k v => key _ k v (mapCall_mapPut_self m k v),
    fun m k v => mapContains_mapRemove_self _ k⟩

/-- Witness for C3 at the German weekdays map of the tests: key `2`
bound to `"Dienstag"` is looked up, `map:put` with key `6` and
`"Sonnabend"` is looked up at `6`, and removing a freshly put key `9`
leaves no binding for it. -/
theorem map_lookup_laws_witness :
    lookupSelect (.unary (.paren [.int 2]))
      (some (.map [(.int 0, .one (.atomic (.str "Sonntag"))),
                   (.int 1, .one (.atomic (.str "Montag"))),
                   (.int 2, .one (.atomic (.str "Dienstag")))])) =
      .ok [XVal.one (.atomic (.str "Dienstag"))] ∧
    lookupSelect (.unary (.paren [.int 6]))
      (some (.map (mapPut [(.int 5, .one (.atomic (.str "Freitag"))),
                           (.int 6, .one (.atomic (.str "Samstag")))]
        (.int 6) (.one (.atomic (.str "Sonnabend")))))) =
      .ok [XVal.one (.atomic (.str "Sonnabend"))] ∧
    mapContains (mapRemove (mapPut [(.int 0, .one (.atomic (.str "Sonntag")))]
      (.int 9) (.one (.atomic (.str "Sonnabend")))) (.int 9)) (.int 9) = false := by
  refine ⟨map_lookup_laws.1 _ (.int 2) (.one (.atomic (.str "Dienstag"))) rfl,
    map_lookup_laws.2.2.1 _ (.int 6) (.one (.atomic (.str "Sonnabend"))),
    map_lookup_laws.2.2.2 _ (.int 9) (.one (.atomic (.str "Sonnabend")))⟩

/-! ## Claim C1 -/

/-- C1: the unary lookup `?K` applies to the context item and the
binary lookup `E?K` iterates `E`, applying the unary form to each item
in order; on a map, key `K` yields the bound value flattened one level
and a key with no binding yields the empty sequence; `*` on a map
yields all values; on an array, an integer `K` yields member `K` and
`*` yields all members; lookup on an item that is neither a map nor an
array raises `XPTY0004`. -/
theorem lookup_operator_spec :
    (∀ (it : XItem) (rest : List XItem) (k : KeySpec) (ctx : Option XItem),
      lookupSelect (.binary (it :: rest) k) ctx =
        do
          let r ← lookupSelect (.unary k) (some it)
          let rs ← lookupSelect (.binary rest k) ctx
          pure (r ++ rs)) ∧
    (∀ (m : List (Atomic × XVal)) (s : String) (v : XVal),
      mapCall m (.str s) = some v →
      lookupSelect (.unary (.name s)) (some (.map m)) =
        .ok ((valItems v).map XVal.one)) ∧
    (∀ (m : List (Atomic × XVal)) (s : String),
      mapCall m (.str s) = none →
      lookupSelect (.unary (.name s)) (some (.map m)) = .ok []) ∧
    (∀ (m : List (Atomic × XVal)),
      lookupSelect (.unary .star) (some (.map m)) =
        .ok ((m.map (·.2)).flatMap fun v => (valItems v).map XVal.one)) ∧
    (∀ (members : List XVal) (n : Int) (v : XVal),
      arrayCall members n = .ok v →
      lookupSelect (.unary (.int n)) (some (.array members)) = .ok [v]) ∧
    (∀ (members : List XVal),
      lookupSelect (.unary .star) (some (.array members)) = .ok members) ∧
    (∀ (a : Atomic) (k : KeySpec),
      lookupSelect (.unary k) (some (.atomic a)) = .error .XPTY0004) := by
  refine ⟨?_, ?_, ?_, ?_, ?_, ?_, ?_⟩
  · intro it rest k ctx
    simp only [lookupSelect, lookupLoop]
    cases lookupUnaryItem it k with
    | error e => simp [Bind.bind, Except.bind, pure, Except.pure]
    | ok r =>
      cases lookupLoop rest k with
      | error e => simp [Bind.bind, Except.bind, pure, Except.pure]
      | ok rs => simp [Bind.bind, Except.bind, pure, Except.pure]
  · intro m s v h
    simp [lookupSelect, lookupLoop, lookupUnaryItem, iterSequence, h,
      Bind.bind, Except.bind, pure, Except.pure]
  · intro m s h
    simp [lookupSelect, lookupLoop, lookupUnaryItem, iterSequence, h,
      Bind.bind, Except.bind, pure, Except.pure]
  · intro m
    simp [lookupSelect, lookupLoop, lookupUnaryItem, iterSequence,
      Bind.bind, Except.bind, pure, Except.pure]
  · intro members n v h
    simp [lookupSelect, lookupLoop, lookupUnaryItem, h,
      Bind.bind, Except.bind, pure, Except.pure, Except.map]
  · intro members
    simp [lookupSelect, lookupLoop, lookupUnaryItem,
      Bind.bind, Except.bind, pure, Except.pure]
  · intro a k
    simp [lookupSelect, lookupLoop, lookupUnaryItem, Bind.bind, Except.bind]

/-- Witness for C1 at the weekday test data: a two-item binary lookup,
a bound key, a missing key, `*` on a map, member 4 of the array
`[1, 2, 5, 7]`, `*` on that array, and lookup on a string item. -/
theorem lookup_operator_spec_witness :
    lookupSelect (.binary [.map [(.str "Mo", .one (.atomic (.str "Monday")))],
        .map [(.str "Mo", .one (.atomic (.str "Montag")))]] (.name "Mo")) none =
      .ok [XVal.one (.atomic (.str "Monday")), .one (.atomic (.str "Montag"))] ∧
    lookupSelect (.unary (.name "Mo"))
      (some (.map [(.str "Su", .one (.atomic (.str "Sunday"))),
                   (.str "Mo", .one (.atomic (.str "Monday")))])) =
      .ok [XVal.one (.atomic (.str "Monday"))] ∧
    lookupSelect (.unary (.name "Mon"))
      (some (.map [(.str "Su", .one (.atomic (.str "Sunday"))),
                   (.str "Mo", .one (.atomic (.str "Monday")))])) = .ok [] ∧
    lookupSelect (.unary .star)
      (some (.map [(.str "Su", .one (.atomic (.str "Sunday"))),
                   (.str "Mo", .one (.atomic (.str "Monday")))])) =
      .ok [XVal.one (.atomic (.str "Sunday")), .one (.atomic (.str "Monday"))] ∧
    lookupSelect (.unary (.int 4))
      (some (.array [XVal.one (.atomic (.int 1)), .one (.atomic (.int 2)),
        .one (.atomic (.int 5)), .one (.atomic (.int 7))])) =
      .ok [XVal.one (.atomic (.int 7))] ∧
    lookupSelect (.unary .star)
      (some (.array [XVal.one (.atomic (.int 1)), .one (.atomic (.int 2))])) =
      .ok [XVal.one (.atomic (.int 1)), .one (.atomic (.int 2))] ∧
    lookupSelect (.unary (.name "k")) (some (.atomic (.str "x"))) =
      .error .XPTY0004 := by
  refine ⟨?_, lookup_operator_spec.2.1 _ "Mo" (.one (.atomic (.str "Monday"))) rfl,
    lookup_operator_spec.2.2.1 _ "Mon" rfl,
    lookup_operator_spec.2.2.2.1 _,
    lookup_operator_spec.2.2.2.2.1 _ 4 (.one (.atomic (.int 7))) rfl,
    lookup_operator_spec.2.2.2.2.2.1 _,
    lookup_operator_spec.2.2.2.2.2.2 (.str "x") (.name "k")⟩
  rw [lookup_operator_spec.1 _ _ (.name "Mo") none]
  rfl

/-! ## Claim C4 -/

/-- C4: `map:put`, `map:remove` and `array:append` are persistent — the
returned map or array is a new value and the original is unchanged,
which the pure embedding expresses as frame conditions: a put or remove
leaves every other key's binding as in the original, and an append
keeps the original members at their positions, adding exactly one. -/
theorem map_array_persistence :
    (∀ (m : List (Atomic × XVal)) (k k' : Atomic) (v : XVal), k' ≠ k →
      mapCall (mapPut m k v) k' = mapCall m k') ∧
    (∀ (m : List (Atomic × XVal)) (k k' : Atomic), k' ≠ k →
      mapCall (mapRemove m k) k' = mapCall m k') ∧
    (∀ (a : List XVal) (v : XVal),
      (arrayAppend a v).length = a.length + 1 ∧
      (arrayAppend a v).take a.length = a) ∧
    (∀ (a : List XVal) (v : XVal) (i : Int), 1 ≤ i → i ≤ a.length →
      arrayCall (arrayAppend a v) i = arrayCall a i) :=
  ⟨fun m k k' v h => mapCall_mapPut_other m k k' v h,
   fun m k k' h => mapCall_mapRemove_other m k k' h,
   fun a v => ⟨by simp [arrayAppend], by simp [arrayAppend, List.take_left]⟩,
   fun a v i h1 h2 => arrayCall_arrayAppend_frame a v i h1 h2⟩

/-- Witness for C4 at the test data of `test_map_put_function` and
`test_array_append_function`: putting key `6` leaves key `5` bound as
before, removing key `4` leaves key `5` bound as before, and appending
`"d"` to `["a", "b", "c"]` keeps member `2`. -/
theorem map_array_persistence_witness :
    mapCall (mapPut [(.int 5, .one (.atomic (.str "Freitag"))),
                     (.int 6, .one (.atomic (.str "Samstag")))]
        (.int 6) (.one (.atomic (.str "Sonnabend")))) (.int 5) =
      some (.one (.atomic (.str "Freitag"))) ∧
    mapCall (mapRemove [(.int 4, .one (.atomic (.str "Donnerstag"))),
                        (.int 5, .one (.atomic (.str "Freitag")))]
        (.int 4)) (.int 5) = some (.one (.atomic (.str "Freitag"))) ∧
    arrayCall (arrayAppend [XVal.one (.atomic (.str "a")),
        .one (.atomic (.str "b")), .one (.atomic (.str "c"))]
        (.one (.atomic (.str "d")))) 2 = .ok (.one (.atomic (.str "b"))) := by
  refine ⟨?_, ?_, ?_⟩
  · rw [map_array_persistence.1 _ (.int 6) (.int 5) _ (by decide)]; rfl
  · rw [map_array_persistence.2.1 _ (.int 4) (.int 5) (by decide)]; rfl
  · rw [map_array_persistence.2.2.2 _ _ 2 (by decide) (by decide)]; rfl

/-! ## Claims C2 and C9 -/

/-- A diagnostic function table defined at every name and arity, whose
functions return the arity they were resolved at. -/
def arityProbeTable : FuncTable :=
  fun _ n => some fun _ => .ok (.one (.atomic (.int n)))

/-- Extraction of an integer result, for comparing evaluation
outcomes. -/
def asIntRes : Except XPathErr XVal → Option Int
  | .ok (.one (.atomic (.int n))) => some n
  | _ => none

theorem flatMap_valItems_map_one (xs : List XItem) :
    (xs.map XVal.one).flatMap valItems = xs := by
  induction xs with
  | nil => rfl
  | cons i rest ih => simp [valItems, ih]

/-- C2 counterexample: with every arity available for `f` (each
overload reporting its arity), the arrow expression `E => F(A)` with a
single argument expression `A` whose value is the two-item sequence
`("a", "b")` resolves `f` at arity 3, while the call `F(E, A)` resolves
it at arity 2 — the two evaluations differ, refuting the claim as
stated. -/
theorem arrow_equivalence_counterexample :
    asIntRes (arrowOfCall arityProbeTable "f" (.one (.atomic (.str "x")))
      [.seq [.atomic (.str "a"), .atomic (.str "b")]]) = some 3 ∧
    asIntRes (directCall arityProbeTable "f"
      (XVal.one (.atomic (.str "x")) ::
        [XVal.seq [.atomic (.str "a"), .atomic (.str "b")]])) = some 2 ∧
    arrowOfCall arityProbeTable "f" (.one (.atomic (.str "x")))
        [.seq [.atomic (.str "a"), .atomic (.str "b")]] ≠
      directCall arityProbeTable "f"
        (XVal.one (.atomic (.str "x")) ::
          [XVal.seq [.atomic (.str "a"), .atomic (.str "b")]]) :=
  ⟨rfl, rfl, fun h => absurd (congrArg asIntRes h) (by decide)⟩

/-- C2 (amended): for every function table, function name, left operand
value and argument list, `E => F(args)` evaluates as `F(E, args)` with
the same contexts, provided each argument expression's value is a
single item (a multi-item sequence argument is spread instead, see the
counterexample). -/
theorem arrow_equivalence (tbl : FuncTable) (f : String) (eVal : XVal)
    (items : List XItem) :
    arrowOfCall tbl f eVal (items.map XVal.one) =
      directCall tbl f (eVal :: items.map XVal.one) := by
  cases items with
  | nil => rfl
  | cons i rest =>
    cases rest with
    | nil => rfl
    | cons j rest' =>
      show evaluateArrow tbl f eVal
        (parenthesizedValue (XVal.one i :: XVal.one j :: rest'.map XVal.one)) = _
      have hpv : parenthesizedValue (XVal.one i :: XVal.one j :: rest'.map XVal.one) =
          some (.seq (i :: j :: rest')) := by
        show some (XVal.seq ((XVal.one i :: XVal.one j :: rest'.map XVal.one).flatMap
          valItems)) = some (XVal.seq (i :: j :: rest'))
        rw [show XVal.one i :: XVal.one j :: rest'.map XVal.one =
          (i :: j :: rest').map XVal.one from rfl]
        rw [flatMap_valItems_map_one]
      rw [hpv]
      rfl

/-- C9: in `E => F(A)` the assembled arguments are the value of `E`
followed by the items of `A`'s value; a list value of `n` items is
spread into `n` separate positional arguments and `F` is resolved at
the total count — so the evaluation equals a direct call on the spread
argument list, and under the arity-reporting table the result is
`1 + n`. -/
theorem arrow_spreads_sequence_argument :
    (∀ (eVal : XVal) (xs : List XItem),
      arrowArguments eVal (some (.seq xs)) = eVal :: xs.map XVal.one) ∧
    (∀ (eVal : XVal) (xs : List XItem),
      (arrowArguments eVal (some (.seq xs))).length = 1 + xs.length) ∧
    (∀ (tbl : FuncTable) (f : String) (eVal : XVal) (xs : List XItem),
      evaluateArrow tbl f eVal (some (.seq xs)) =
        directCall tbl f (eVal :: xs.map XVal.one)) ∧
    (∀ (eVal : XVal) (xs : List XItem),
      evaluateArrow arityProbeTable "f" eVal (some (.seq xs)) =
        .ok (.one (.atomic (.int (1 + xs.length))))) := by
  refine ⟨fun eVal xs => rfl, ?_, fun tbl f eVal xs => rfl, ?_⟩
  · intro eVal xs
    simp [arrowArguments]
    omega
  · intro eVal xs
    simp only [evaluateArrow, arrowArguments, arityProbeTable]
    simp only [Except.ok.injEq, XVal.one.injEq, XItem.atomic.injEq,
      Atomic.int.injEq, List.length_cons, List.length_map]
    omega

/-! ## Claim C5 -/

/-- C5: parsing a square array constructor in expression-start position
raises a static syntax error exactly when the parser version is below
`'3.1'`; a 3.1 parser yields an array token whose members are the
comma-separated expressions in order, and both `array { 1, 2, 5, 7 }(4)`
and `[ 1, 2, 5, 7 ](4)` evaluate to the integer 7. -/
theorem square_array_constructor_spec :
    (∀ (version : String) (members : List XVal),
      ((∃ e, nudSquareArrayConstructor version members = .error e) ↔
        pyStrLt version "3.1" = true) ∧
      (pyStrLt version "3.1" = false →
        nudSquareArrayConstructor version members = .ok members)) ∧
    (∀ members, nudSquareArrayConstructor "1.0" members = .error .XPST0003 ∧
      nudSquareArrayConstructor "2.0" members = .error .XPST0003 ∧
      nudSquareArrayConstructor "3.0" members = .error .XPST0003 ∧
      nudSquareArrayConstructor "3.1" members = .ok members) ∧
    (arrayCall [XVal.one (.atomic (.int 1)), .one (.atomic (.int 2)),
      .one (.atomic (.int 5)), .one (.atomic (.int 7))] 4 =
      .ok (.one (.atomic (.int 7)))) ∧
    (curlyArrayConstruct (.seq [.atomic (.int 1), .atomic (.int 2),
      .atomic (.int 5), .atomic (.int 7)]) =
      [XVal.one (.atomic (.int 1)), .one (.atomic (.int 2)),
       .one (.atomic (.int 5)), .one (.atomic (.int 7))]) ∧
    (arrayCall (curlyArrayConstruct (.seq [.atomic (.int 1), .atomic (.int 2),
      .atomic (.int 5), .atomic (.int 7)])) 4 = .ok (.one (.atomic (.int 7)))) := by
  refine ⟨?_, ?_, rfl, rfl, rfl⟩
  · intro version members
    constructor
    · constructor
      · intro ⟨e, he⟩
        by_contra hv
        rw [Bool.not_eq_true] at hv
        simp [nudSquareArrayConstructor, hv] at he
      · intro hv
        exact ⟨.XPST0003, by simp [nudSquareArrayConstructor, hv]⟩
    · intro hv
      simp [nudSquareArrayConstructor, hv]
  · intro members
    refine ⟨?_, ?_, ?_, ?_⟩ <;> simp [nudSquareArrayConstructor] <;> decide

/-- Witness for C5: the version comparisons discharged at `"3.0"` and
`"3.1"` with the four-member list of `test_array_lookup`. -/
theorem square_array_constructor_spec_witness :
    nudSquareArrayConstructor "3.0" [XVal.one (.atomic (.int 1))] =
      .error .XPST0003 ∧
    nudSquareArrayConstructor "3.1" [XVal.one (.atomic (.int 1)),
      .one (.atomic (.int 2)), .one (.atomic (.int 5)),
      .one (.atomic (.int 7))] =
      .ok [XVal.one (.atomic (.int 1)), .one (.atomic (.int 2)),
        .one (.atomic (.int 5)), .one (.atomic (.int 7))] := by
  constructor
  · exact (square_array_constructor_spec.2.1 _).2.2.1
  · exact ((square_array_constructor_spec.1 _ _).2 (by decide))

/-! ## Claim C6 -/

/-- C6: the `map` keyword's nud parses a map constructor after `{`, a
map kind test after `(` — accepting a single `*` or exactly two
comma-separated type operands — and an ordinary name otherwise; the
tokenizer recognizes `map` as this symbol only when not preceded by `$`
and followed, possibly after a comment, by `(` or `{`. -/
theorem map_keyword_spec :
    (∀ rest, nudMap (.lbrace :: rest) = .ok (.constructor, .lbrace :: rest)) ∧
    (∀ (t : STok) rest, t ≠ .lbrace → t ≠ .lparen →
      nudMap (t :: rest) = .ok (.asName, t :: rest)) ∧
    (∀ rest, nudMap (.lparen :: .star :: .rparen :: rest) =
      .ok (.kindTestAny, rest)) ∧
    (∀ k v rest, nudMap (.lparen :: .name k :: .comma :: .name v ::
      .rparen :: rest) = .ok (.kindTest k v, rest)) ∧
    (∀ k rest, nudMap (.lparen :: .name k :: .rparen :: rest) =
      .error .XPST0003) ∧
    (∀ rest, nudMap (.lparen :: .star :: .comma :: rest) =
      .error .XPST0003) ∧
    (∀ k v rest, nudMap (.lparen :: .name k :: .comma :: .name v ::
      .comma :: rest) = .error .XPST0003) ∧
    (∀ cs, recognizeMap (some '$') cs = false) ∧
    (∀ (prev : Option Char) (cs : List Char),
      recognizeMap prev cs = true → mapLookaheadOk cs = true) ∧
    (recognizeMap (some ' ') "(*)".toList = true ∧
     recognizeMap (some ' ') "(xs:string, xs:integer)".toList = true ∧
     recognizeMap (some ' ') " \x7b \x7d".toList = true ∧
     recognizeMap (some ' ') " (: kind :) \x7b".toList = true ∧
     recognizeMap (some ' ') " weekdays".toList = false ∧
     recognizeMap (some 'p') "(*)".toList = false) := by
  refine ⟨fun rest => rfl, ?_, fun rest => rfl, fun k v rest => rfl,
    fun k rest => rfl, fun rest => rfl, fun k v rest => rfl,
    fun cs => rfl, ?_, by decide, by decide, by decide, by decide,
    by decide, by decide⟩
  · intro t rest h1 h2
    cases t with
    | lbrace => exact absurd rfl h1
    | lparen => exact absurd rfl h2
    | rparen => rfl
    | comma => rfl
    | star => rfl
    | name s => rfl
    | other s => rfl
  · intro prev cs h
    cases prev with
    | none => exact h
    | some c =>
      simp only [recognizeMap, Bool.and_eq_true] at h
      exact h.2

/-- Witness for C6: the nud on a stream that is neither `{` nor `(` and
the recognizer implication at a concrete non-`$` position. -/
theorem map_keyword_spec_witness :
    nudMap [STok.name "weekdays"] = .ok (.asName, [STok.name "weekdays"]) ∧
    mapLookaheadOk " \x7b \x7d".toList = true := by
  constructor
  · exact map_keyword_spec.2.1 (.name "weekdays") []
      (by decide) (by decide)
  · exact map_keyword_spec.2.2.2.2.2.2.2.2.1 (some ' ') " \x7b \x7d".toList
      (by decide)

/-! ## Claim C7 -/

theorem romanFoldl_shift (l : List (Nat × String)) (s : String) (n : Nat) :
    l.foldl romanStep (s, n) =
      (s ++ (l.foldl romanStep ("", n)).1, (l.foldl romanStep ("", n)).2) := by
  induction l generalizing s n with
  | nil => simp [String.append_empty]
  | cons p l ih =>
    simp only [List.foldl_cons]
    rw [show romanStep (s, n) p =
          (s ++ repeatStr p.2 (n / p.1), n % p.1) from rfl,
        show romanStep ("", n) p =
          ("" ++ repeatStr p.2 (n / p.1), n % p.1) from rfl,
        ih (s ++ repeatStr p.2 (n / p.1)) (n % p.1),
        ih ("" ++ repeatStr p.2 (n / p.1)) (n % p.1)]
    simp [String.empty_append, String.append_assoc]

/-- C7: the roman rendering is the greedy decomposition over the fixed
map — in particular every `n ≥ 1000` begins with `M` followed by the
rendering of `n - 1000` — and `format-integer(7, "I") = "VII"`, while
the English word rendering gives `format-integer(1234, "w", "en") =
"one thousand two hundred thirty-four"`. -/
theorem format_integer_spec :
    (∀ n : Nat, 1000 ≤ n → intToRoman n = "M" ++ intToRoman (n - 1000)) ∧
    intToRoman 7 = "VII" ∧
    intToRoman 1990 = "MCMXC" ∧
    numToWordsEn 1234 = "one thousand two hundred thirty-four" := by
  refine ⟨?_, by decide, by decide, by decide⟩
  intro n h
  have hdiv : n / 1000 = (n - 1000) / 1000 + 1 := by omega
  have hmod : n % 1000 = (n - 1000) % 1000 := by omega
  unfold intToRoman
  rw [show ROMAN_NUMERALS_MAP = (1000, "M") :: ROMAN_NUMERALS_MAP.tail from rfl]
  simp only [List.foldl_cons]
  rw [show romanStep ("", n) (1000, "M") =
        ("" ++ repeatStr "M" (n / 1000), n % 1000) from rfl,
      show romanStep ("", n - 1000) (1000, "M") =
        ("" ++ repeatStr "M" ((n - 1000) / 1000), (n - 1000) % 1000) from rfl,
      romanFoldl_shift _ ("" ++ repeatStr "M" (n / 1000)) (n % 1000),
      romanFoldl_shift _ ("" ++ repeatStr "M" ((n - 1000) / 1000))
        ((n - 1000) % 1000),
      hdiv, hmod]
  simp only [repeatStr]
  simp [String.empty_append, String.append_assoc]

/-- Witness for C7: the greedy step discharged at 1990, whose rendering
continues with the rendering of 990. -/
theorem format_integer_spec_witness :
    (1000 ≤ 1990 ∧ intToRoman 1990 = "M" ++ intToRoman 990) :=
  ⟨by decide, format_integer_spec.1 1990 (by decide)⟩

/-! ## Claim C8 -/

/-- C8: the driver's `assert_permutation_validator` is unimplemented —
validating an `assert-permutation` result element performs no check and
returns `None`, never `True`, so a test case with an
`assert-permutation` expectation is classified as unknown, not as
passing. -/
theorem assert_permutation_unimplemented :
    validate .assertPermutation = none ∧
    validate .assertPermutation ≠ some true ∧
    caseOutcome .assertPermutation = .unknown ∧
    caseOutcome .assertPermutation ≠ .success := by
  refine ⟨rfl, ?_, rfl, ?_⟩
  · intro h
    simp [validate] at h
  · intro h
    simp [caseOutcome, validate] at h

/-! ## Claim C10 -/

/-- C10: a `?` token constructed immediately after `(` or `,` gets zero
left and right binding power (an argument placeholder, not the lookup
operator); and in expression-start position, when the next symbol is
none of `(name)`, `(integer)`, `(` or `*`, the nud catches the syntax
error and keeps the token childless, whose evaluate then returns the
stored value `None` rather than raising. -/
theorem lookup_placeholder_spec :
    lookupInitBP "(" = (0, 0) ∧
    lookupInitBP "," = (0, 0) ∧
    lookupInitBP "(name)" = (85, 85) ∧
    (∀ next : String, next ≠ "(name)" → next ≠ "(integer)" →
      next ≠ "(" → next ≠ "*" → lookupNud next = .placeholder) ∧
    (lookupNud "(name)" = .keyOperand ∧ lookupNud "(integer)" = .keyOperand ∧
     lookupNud "(" = .keyOperand ∧ lookupNud "*" = .keyOperand) ∧
    (∀ ctx : Option XItem, lookupEvaluate (.noChildren none) ctx = .ok .pyNone) := by
  refine ⟨rfl, rfl, rfl, ?_, ⟨rfl, rfl, rfl, rfl⟩, fun ctx => rfl⟩
  intro next h1 h2 h3 h4
  simp [lookupNud, h1, h2, h3, h4]

/-- Witness for C10: the nud outcome at the `]` symbol, which is not a
valid key start, applied through the theorem. -/
theorem lookup_placeholder_spec_witness :
    lookupNud "]" = .placeholder :=
  lookup_placeholder_spec.2.2.2.1 "]" (by decide) (by decide) (by decide)
    (by decide)

end Elementpath
